import Mathlib

/-!
Verification development for the mlsec competition platform
(services/worker of the repository): the job store helpers (worker/db.py),
the worker registry (worker/redis_client.py), the attack dispatcher and the
defense executor (worker/tasks.py), the evaluation loop
(worker/defense/evaluate.py), and the source-resolution handlers
(worker/defense/zip_handler.py, worker/defense/docker_handler.py), embedded
shallowly as pure functions over explicit database and registry states.
Statuses and identifiers are kept as the string literals the code uses;
timestamp columns (created_at, updated_at, heartbeat) are omitted because no
verified property mentions them.
-/

/-- One jsonb object, modelled as an association list of string keys to
string-rendered values. -/
abbrev JsonObj := List (String × String)

/-- Postgres jsonb concatenation of two objects: keys of the right operand
override keys of the left. -/
def jsonbConcat (a b : JsonObj) : JsonObj :=
  a.filter (fun p => !(b.any (fun q => q.1 == p.1))) ++ b

/-- One row of the jobs table.  The worker tests read a separate
error_details column (test_attack_job_integration.py line 425), so the row
carries it; requested_by_user_id is omitted (no property mentions it). -/
structure Job where
  id : String
  job_type : String
  status : String
  payload : Option JsonObj
  error_details : Option String
deriving Repr, DecidableEq

/-- db.set_job_status (worker/db.py lines 18 - 46): an unconditional UPDATE
of every row whose id matches.  When an error is given, the payload column
itself is overwritten with COALESCE(payload, empty object) concatenated with
the one-key object error maps-to the message; no other column is touched. -/
def set_job_status (jobs : List Job) (job_id status : String)
    (error : Option String) : List Job :=
  jobs.map fun j =>
    if j.id == job_id then
      match error with
      | none => { j with status := status }
      | some e =>
          { j with status := status,
                   payload := some (jsonbConcat (j.payload.getD []) [("error", e)]) }
    else j

/-- One row of the submissions table (fields the worker touches).
deleted is true when deleted_at IS NOT NULL. -/
structure Submission where
  id : String
  submission_type : String
  status : String
  is_functional : Option Bool
  functional_error : Option String
  deleted : Bool
deriving Repr, DecidableEq

/-- One row of the evaluation_runs table. -/
structure EvalRun where
  id : String
  defense_submission_id : String
  attack_submission_id : String
  status : String
deriving Repr, DecidableEq

/-- db.get_all_validated_defenses (worker/db.py lines 164 - 183). -/
def get_all_validated_defenses (subs : List Submission) : List String :=
  (subs.filter fun s =>
      s.submission_type == "defense" && s.is_functional == some true
        && s.status == "ready" && !s.deleted).map (·.id)

/-- db.get_unevaluated_attacks (worker/db.py lines 186 - 214): ready,
non-deleted attacks whose id is not among the attack ids of this defense's
evaluation runs in status running or done. -/
def get_unevaluated_attacks (subs : List Submission) (runs : List EvalRun)
    (def_id : String) : List String :=
  (subs.filter fun s =>
      s.submission_type == "attack" && s.status == "ready" && !s.deleted
        && !(runs.any fun r =>
              r.defense_submission_id == def_id
                && (r.status == "running" || r.status == "done")
                && r.attack_submission_id == s.id)).map (·.id)

/-- The backfill query as the spec words it (section 4.4 Phase B): an attack
is excluded when a run for the pair exists in state queued, running or done.
Stated only to compare with get_unevaluated_attacks from the source. -/
def get_unevaluated_attacks_specquery (subs : List Submission) (runs : List EvalRun)
    (def_id : String) : List String :=
  (subs.filter fun s =>
      s.submission_type == "attack" && s.status == "ready" && !s.deleted
        && !(runs.any fun r =>
              r.defense_submission_id == def_id
                && (r.status == "queued" || r.status == "running" || r.status == "done")
                && r.attack_submission_id == s.id)).map (·.id)

/-- db.check_if_needs_validation (worker/db.py lines 217 - 236): true when
the scalar is_functional read is NULL (also when the row is absent). -/
def check_if_needs_validation (subs : List Submission) (def_id : String) : Bool :=
  match subs.find? (fun s => s.id == def_id) with
  | some s => s.is_functional.isNone
  | none => true

/-- db.mark_defense_validated (worker/db.py lines 239 - 256). -/
def mark_defense_validated (subs : List Submission) (def_id : String) : List Submission :=
  subs.map fun s =>
    if s.id == def_id then { s with is_functional := some true, status := "ready" } else s

/-- db.mark_defense_failed (worker/db.py lines 259 - 278). -/
def mark_defense_failed (subs : List Submission) (def_id err : String) : List Submission :=
  subs.map fun s =>
    if s.id == def_id then
      { s with is_functional := some false, functional_error := some err, status := "failed" }
    else s

/-- db.mark_attack_validated (worker/db.py lines 340 - 356). -/
def mark_attack_validated (subs : List Submission) (atk_id : String) : List Submission :=
  subs.map fun s => if s.id == atk_id then { s with status := "ready" } else s

/-- db.is_evaluation_in_progress (worker/db.py lines 315 - 337). -/
def is_evaluation_in_progress (runs : List EvalRun) (def_id atk_id : String) : Bool :=
  runs.any fun r =>
    r.defense_submission_id == def_id && r.attack_submission_id == atk_id
      && (r.status == "queued" || r.status == "running")

/-- db.ensure_evaluation_run (worker/db.py lines 66 - 79): an unconditional
INSERT of a row with status running, returning the fresh id; the model draws
ids from a counter. -/
def ensure_evaluation_run (runs : List EvalRun) (nextId : Nat)
    (def_id atk_id : String) : List EvalRun × String × Nat :=
  let rid := "run-" ++ toString nextId
  (runs ++ [{ id := rid, defense_submission_id := def_id,
              attack_submission_id := atk_id, status := "running" }], rid, nextId + 1)

/- Concrete rows used by the claim evaluations below. -/

def jobDoneRow : Job :=
  { id := "j1", job_type := "defense", status := "done",
    payload := some [("defense_submission_id", "d1")], error_details := none }

def jobRunningRow : Job :=
  { id := "j2", job_type := "attack", status := "running",
    payload := some [("attack_submission_id", "a1")], error_details := none }

/-- C5 counterexample: set_job_status applies the edge done to running, which
the claim says is rejected, so a job in the terminal status done is mutated. -/
theorem C5_counterexample :
    jobDoneRow.status = "done"
      ∧ (set_job_status [jobDoneRow] "j1" "running" none).map (·.status) = ["running"] :=
  ⟨rfl, rfl⟩

/-- C5 (amended): the job-store status transition operation validates nothing:
every row whose id matches is set to the requested status whatever its prior
status (in particular done and failed rows are rewritten), and every row
whose id differs is returned unchanged. -/
theorem C5_amended_no_transition_guard (jobs : List Job) (job_id status : String)
    (error : Option String) :
    (∀ j ∈ set_job_status jobs job_id status error, j.id = job_id → j.status = status)
      ∧ (∀ j ∈ jobs, j.id ≠ job_id → j ∈ set_job_status jobs job_id status error) := by
  constructor
  · intro j hj hid
    simp only [set_job_status, List.mem_map] at hj
    obtain ⟨j0, hj0, rfl⟩ := hj
    by_cases h : j0.id == job_id
    · simp only [h, if_true]
      cases error <;> rfl
    · simp only [h, if_false] at hid ⊢
      exact absurd hid (by simpa using h)
  · intro j hj hid
    simp only [set_job_status, List.mem_map]
    refine ⟨j, hj, ?_⟩
    have : (j.id == job_id) = false := by simpa using hid
    simp [this]

/-- C5 amended witness at a concrete table: the done job j1 is rewritten to
running by the unguarded update. -/
theorem C5_amended_witness :
    ({ jobDoneRow with status := "running" } : Job).status = "running" :=
  (C5_amended_no_transition_guard [jobDoneRow] "j1" "running" none).1
    { jobDoneRow with status := "running" } (by decide) (by decide)

/-- C6: transitioning a job to failed with an error message merges the error
into the payload column itself (the payload is rewritten) and leaves the
separate error_details column untouched, contradicting the claim that the
error is persisted apart from an unchanged payload. -/
theorem C6_error_merged_into_payload :
    (set_job_status [jobRunningRow] "j2" "failed" (some "Redis connection failed")).map (·.payload)
        = [some [("attack_submission_id", "a1"), ("error", "Redis connection failed")]]
      ∧ (set_job_status [jobRunningRow] "j2" "failed" (some "Redis connection failed")).map (·.payload)
          ≠ [jobRunningRow.payload]
      ∧ (set_job_status [jobRunningRow] "j2" "failed" (some "Redis connection failed")).map (·.error_details)
          = [none] := by
  refine ⟨by decide, by decide, by decide⟩

def subAttackReady : Submission :=
  { id := "a1", submission_type := "attack", status := "ready",
    is_functional := none, functional_error := none, deleted := false }

def runQueuedRow : EvalRun :=
  { id := "r1", defense_submission_id := "d1", attack_submission_id := "a1",
    status := "queued" }

/-- C7 counterexample: with one ready attack a1 and one evaluation run for
the pair in state queued, the source query still returns a1 while the
claimed query (which also excludes queued runs) returns nothing. -/
theorem C7_counterexample :
    get_unevaluated_attacks [subAttackReady] [runQueuedRow] "d1" = ["a1"]
      ∧ get_unevaluated_attacks_specquery [subAttackReady] [runQueuedRow] "d1" = [] :=
  ⟨rfl, rfl⟩

/-- Propositional reading of the row predicate of the backfill query. -/
theorem backfill_pred_iff (s : Submission) (runs : List EvalRun) (d : String) :
    (s.submission_type == "attack" && s.status == "ready" && !s.deleted
        && !(runs.any fun r =>
              r.defense_submission_id == d
                && (r.status == "running" || r.status == "done")
                && r.attack_submission_id == s.id)) = true
      ↔ s.submission_type = "attack" ∧ s.status = "ready" ∧ s.deleted = false
          ∧ ¬ ∃ r ∈ runs, r.defense_submission_id = d ∧ r.attack_submission_id = s.id
              ∧ (r.status = "running" ∨ r.status = "done") := by
  simp only [Bool.and_eq_true, Bool.not_eq_true', Bool.not_eq_false,
    Bool.not_eq_true, beq_iff_eq, Bool.or_eq_true]
  constructor
  · rintro ⟨⟨⟨h1, h2⟩, h3⟩, h4⟩
    refine ⟨h1, h2, h3, ?_⟩
    rintro ⟨r, hr, hd, ha, hst⟩
    have h5 := List.any_eq_false.mp h4 r hr
    simp only [Bool.and_eq_true, beq_iff_eq, Bool.or_eq_true, not_and] at h5
    exact h5 ⟨hd, hst⟩ ha
  · rintro ⟨h1, h2, h3, h4⟩
    refine ⟨⟨⟨h1, h2⟩, h3⟩, List.any_eq_false.mpr ?_⟩
    intro r hr
    simp only [Bool.and_eq_true, beq_iff_eq, Bool.or_eq_true, not_and]
    rintro ⟨hd, hst⟩ ha
    exact h4 ⟨r, hr, hd, ha, hst⟩

/-- C7 (amended): the backfill query returns exactly the validated, not
soft-deleted attacks with no EvaluationRun for this defense in state running
or done; a run in state queued does not exclude an attack. -/
theorem C7_amended_characterization (subs : List Submission) (runs : List EvalRun)
    (d a : String) :
    a ∈ get_unevaluated_attacks subs runs d
      ↔ ∃ s ∈ subs, s.id = a ∧ s.submission_type = "attack" ∧ s.status = "ready"
          ∧ s.deleted = false
          ∧ ¬ ∃ r ∈ runs, r.defense_submission_id = d ∧ r.attack_submission_id = a
              ∧ (r.status = "running" ∨ r.status = "done") := by
  simp only [get_unevaluated_attacks, List.mem_map, List.mem_filter]
  constructor
  · rintro ⟨s, ⟨hs, hpred⟩, rfl⟩
    obtain ⟨h1, h2, h3, h4⟩ := (backfill_pred_iff s runs d).mp hpred
    exact ⟨s, hs, rfl, h1, h2, h3, h4⟩
  · rintro ⟨s, hs, rfl, h1, h2, h3, h4⟩
    exact ⟨s, ⟨hs, (backfill_pred_iff s runs d).mpr ⟨h1, h2, h3, h4⟩⟩, rfl⟩

/-- C7 amended witness at a concrete table: with a queued run for (d1, a1)
the ready attack a1 is still returned, as the characterization predicts. -/
theorem C7_amended_witness :
    "a1" ∈ get_unevaluated_attacks [subAttackReady] [runQueuedRow] "d1" :=
  (C7_amended_characterization [subAttackReady] [runQueuedRow] "d1" "a1").mpr
    ⟨subAttackReady, by decide, rfl, rfl, rfl, rfl, by
      rintro ⟨r, hr, -, -, hst⟩
      have : r = runQueuedRow := by simpa using hr
      subst this
      rcases hst with h | h <;> exact absurd h (by decide)⟩

/- Evaluation loop of worker/defense/evaluate.py (run_evaluation). -/

instance {ε α : Type} [DecidableEq ε] [DecidableEq α] : DecidableEq (Except ε α) := fun a b =>
  match a, b with
  | Except.ok x, Except.ok y =>
    decidable_of_iff (x = y) ⟨fun h => by rw [h], fun h => by cases h; rfl⟩
  | Except.error x, Except.error y =>
    decidable_of_iff (x = y) ⟨fun h => by rw [h], fun h => by cases h; rfl⟩
  | Except.ok _, Except.error _ => isFalse (fun h => by cases h)
  | Except.error _, Except.ok _ => isFalse (fun h => by cases h)

/-- Python str.startswith, computed over the character lists so that the
kernel can evaluate it on literals. -/
def strStartsWith (s p : String) : Bool :=
  p.toList.isPrefixOf s.toList

/-- Helper of strSplitOn: fuel-indexed scan emitting a piece at each
occurrence of the separator.  The fuel equals the length of the scanned list
at the top call, so the fuel-exhausted branch is never reached (each step
consumes at least one character). -/
def splitOnListGo (sep : List Char) : Nat → List Char → List Char → List (List Char)
  | _, acc, [] => [acc.reverse]
  | 0, acc, rest => [acc.reverse ++ rest]
  | fuel + 1, acc, c :: rest =>
    if sep.isPrefixOf (c :: rest) then
      acc.reverse :: splitOnListGo sep fuel [] (List.drop (sep.length - 1) rest)
    else splitOnListGo sep fuel (c :: acc) rest

/-- Python str.split with a non-empty separator (matches String.splitOn),
computed over the character lists so that the kernel can evaluate it. -/
def strSplitOn (s sep : String) : List String :=
  (splitOnListGo sep.toList s.toList.length [] s.toList).map String.mk

/-- Outcome of one HTTP POST attempt to the defense through the gateway, as
the evaluation loop classifies it: a response, a requests ConnectionError, a
requests Timeout, or any other exception.  A response carries the status
code, the parse of response.json() (exception message or the value of the
result key, absent keys giving none), and the body text. -/
inductive PostOutcome where
  | resp (status_code : Nat) (json : Except String (Option Int)) (text : String)
  | connError (msg : String)
  | timeoutError
  | otherError (msg : String)
deriving Repr, DecidableEq

/-- Exit of the attempt loop: the response of a successful POST, or the
recorded error message (none only when the loop body never ran). -/
inductive LoopExit where
  | success (status_code : Nat) (json : Except String (Option Int)) (text : String)
  | errored (msg : Option String)
deriving Repr, DecidableEq

/-- The attempt loop of run_evaluation (evaluate.py lines 93 - 126): for
retry in range(max_retries), breaking on success, Timeout and unexpected
errors; a ConnectionError continues only while retry is less than
max_retries - 1 and otherwise records the error.  post gives the outcome of
the attempt with that index; the second component counts attempts made. -/
def attemptLoopGo (post : Nat → PostOutcome) (max_retries : Nat) :
    Nat → Nat → LoopExit × Nat
  | retry, Nat.zero => (LoopExit.errored none, retry)
  | retry, Nat.succ rem =>
    match post retry with
    | .resp sc js tx => (LoopExit.success sc js tx, retry + 1)
    | .connError m =>
      if retry < max_retries - 1 then attemptLoopGo post max_retries (retry + 1) rem
      else (LoopExit.errored (some ("ConnectionError on final retry: " ++ m)), retry + 1)
    | .timeoutError => (LoopExit.errored (some "HTTP request timeout"), retry + 1)
    | .otherError m => (LoopExit.errored (some ("Unexpected error: " ++ m)), retry + 1)

/-- Whole attempt loop entered at retry 0. -/
def attemptLoop (post : Nat → PostOutcome) (max_retries : Nat) : LoopExit × Nat :=
  attemptLoopGo post max_retries 0 max_retries

/-- Per-file evaluation of run_evaluation (evaluate.py lines 92 - 152): the
attempt loop with max_retries = 1 (line 93), then the response checks, giving
the model_output and error that upsert_evaluation records for the file,
together with the number of POST attempts made. -/
def evaluateFile (post : Nat → PostOutcome) : Option Int × Option String × Nat :=
  let r := attemptLoop post 1
  match r.1 with
  | .errored m => (none, m, r.2)
  | .success sc js tx =>
    if sc ≠ 200 then (none, some ("HTTP " ++ toString sc ++ ": " ++ tx.take 200), r.2)
    else
      match js with
      | .error e => (none, some ("Failed to parse JSON: " ++ e), r.2)
      | .ok (some v) =>
        if v = 0 ∨ v = 1 then (some v, none, r.2)
        else (none, some ("Invalid prediction: " ++ toString v), r.2)
      | .ok none => (none, some "Invalid prediction: None", r.2)

/-- Attempt environment whose first POST raises a ConnectionError and whose
second would succeed with result 1. -/
def postEnvConnThenOk : Nat → PostOutcome
  | 0 => PostOutcome.connError "connection refused"
  | _ => PostOutcome.resp 200 (Except.ok (some 1)) "ok"

/-- C8 counterexample: a POST failing with a connection-class error is
recorded as errored after a single attempt, with no retry, even though the
retry the claim promises would have succeeded. -/
theorem C8_counterexample :
    evaluateFile postEnvConnThenOk
      = (none, some "ConnectionError on final retry: connection refused", 1) := rfl

/-- C8 (amended): with max_retries = 1 the loop makes exactly one POST
attempt whatever its outcome; a connection-class failure is recorded as
errored immediately with no retry, and a timeout likewise after the single
attempt. -/
theorem C8_amended_no_retry (post : Nat → PostOutcome) :
    (attemptLoop post 1).2 = 1
      ∧ (∀ m, post 0 = PostOutcome.connError m →
          evaluateFile post = (none, some ("ConnectionError on final retry: " ++ m), 1))
      ∧ (post 0 = PostOutcome.timeoutError →
          evaluateFile post = (none, some "HTTP request timeout", 1)) := by
  refine ⟨?_, ?_, ?_⟩
  · cases h : post 0 <;> simp [attemptLoop, attemptLoopGo, h]
  · intro m h
    simp [evaluateFile, attemptLoop, attemptLoopGo, h]
  · intro h
    simp [evaluateFile, attemptLoop, attemptLoopGo, h]

/-- C8 amended witness at a concrete environment: one attempt, and the
connection failure of that attempt recorded as the error. -/
theorem C8_amended_witness :
    evaluateFile postEnvConnThenOk
      = (none, some ("ConnectionError on final retry: " ++ "connection refused"), 1) :=
  (C8_amended_no_retry postEnvConnThenOk).2.1 "connection refused" rfl

/- ZIP extraction guard of worker/defense/zip_handler.py. -/

/-- One member of a ZIP archive namelist, with its uncompressed size from
the archive directory. -/
structure ZipEntry where
  filename : String
  file_size : Nat
deriving Repr, DecidableEq

/-- Component pass of os.path.normpath for POSIX paths: empty and dot
components vanish; a dot-dot component is kept when the path is relative and
nothing precedes it or when the previous kept component is itself dot-dot,
and otherwise pops the previous component (or vanishes at the root of an
absolute path). -/
def normpathComps (initial_slashes : Bool) : List String → List String → List String
  | acc, [] => acc
  | acc, comp :: rest =>
    if comp = "" ∨ comp = "." then normpathComps initial_slashes acc rest
    else if comp ≠ ".." ∨ (¬ initial_slashes ∧ acc = [])
        ∨ (acc ≠ [] ∧ acc.getLast? = some "..") then
      normpathComps initial_slashes (acc ++ [comp]) rest
    else if acc ≠ [] then normpathComps initial_slashes acc.dropLast rest
    else normpathComps initial_slashes acc rest

/-- os.path.normpath for POSIX paths (one or two preserved leading slashes,
then the component pass, with dot for an empty result). -/
def normpath (path : String) : String :=
  if path = "" then "."
  else
    let slashes : Nat :=
      if strStartsWith path "//" ∧ ¬ strStartsWith path "///" then 2
      else if strStartsWith path "/" then 1 else 0
    let comps := normpathComps (slashes ≠ 0) [] (strSplitOn path "/")
    let out := String.mk (List.replicate slashes '/') ++ String.intercalate "/" comps
    if out = "" then "." else out

/-- Security limits of zip_handler.py (lines 18 - 19). -/
def MAX_TOTAL_SIZE : Nat := 10 * 1024 * 1024 * 1024

def MAX_FILE_COUNT : Nat := 10000

/-- Body of the zipfile context in _extract_zip_safely (zip_handler.py lines
193 - 220): a ValueError on the first member whose normalised path starts
with dot-dot or is absolute, then the file-count and total-size checks, and
only then extractall; the ok payload is the list of entries extracted. -/
def extractZipChecks (namelist : List ZipEntry) : Except String (List ZipEntry) :=
  match namelist.find? (fun m =>
      strStartsWith (normpath m.filename) ".." || strStartsWith (normpath m.filename) "/") with
  | some m =>
    Except.error ("Malicious path in ZIP: " ++ m.filename ++ " (path traversal detected)")
  | none =>
    if namelist.length > MAX_FILE_COUNT then
      Except.error ("ZIP contains too many files: " ++ toString namelist.length
        ++ " (max: " ++ toString MAX_FILE_COUNT ++ ")")
    else if (namelist.map (·.file_size)).sum > MAX_TOTAL_SIZE then
      Except.error ("ZIP uncompressed size too large: "
        ++ toString (namelist.map (·.file_size)).sum
        ++ " bytes (max: " ++ toString MAX_TOTAL_SIZE ++ ")")
    else Except.ok namelist

/-- zip_handler._extract_zip_safely (lines 176 - 225): the final except
clause re-wraps every exception raised inside the body, so the ValueError
surfaces with the Failed-to-extract prefix.  An error means extractall was
never reached: no file is written. -/
def extractZipSafely (namelist : List ZipEntry) : Except String (List ZipEntry) :=
  match extractZipChecks namelist with
  | Except.ok l => Except.ok l
  | Except.error e => Except.error ("Failed to extract ZIP: " ++ e)

/-- C9: an archive with a member whose normalised path is absolute or starts
with dot-dot is rejected with a validation error and nothing is extracted. -/
theorem C9_traversal_rejected (namelist : List ZipEntry)
    (h : ∃ m ∈ namelist, strStartsWith (normpath m.filename) "/" = true
          ∨ strStartsWith (normpath m.filename) ".." = true) :
    (∃ e, extractZipSafely namelist = Except.error e)
      ∧ ∀ l, extractZipSafely namelist ≠ Except.ok l := by
  obtain ⟨m, hm, hbad⟩ := h
  have hpred : (strStartsWith (normpath m.filename) ".."
      || strStartsWith (normpath m.filename) "/") = true := by
    rcases hbad with h1 | h1 <;> simp [h1]
  have hfind : namelist.find? (fun m =>
      strStartsWith (normpath m.filename) ".." || strStartsWith (normpath m.filename) "/") ≠ none := by
    intro hnone
    exact absurd hpred (by simpa using List.find?_eq_none.mp hnone m hm)
  rcases hf : namelist.find? (fun m =>
      strStartsWith (normpath m.filename) ".." || strStartsWith (normpath m.filename) "/") with _ | m0
  · exact absurd hf hfind
  · constructor
    · exact ⟨"Failed to extract ZIP: " ++ ("Malicious path in ZIP: " ++ m0.filename
          ++ " (path traversal detected)"), by simp [extractZipSafely, extractZipChecks, hf]⟩
    · intro l
      simp [extractZipSafely, extractZipChecks, hf]

/-- C9 witness: the archive holding the single entry dot-dot slash dot-dot
slash etc slash passwd is rejected without extraction. -/
theorem C9_witness :
    (∃ e, extractZipSafely [{ filename := "../../etc/passwd", file_size := 10 }]
        = Except.error e)
      ∧ ∀ l, extractZipSafely [{ filename := "../../etc/passwd", file_size := 10 }]
          ≠ Except.ok l :=
  C9_traversal_rejected [{ filename := "../../etc/passwd", file_size := 10 }]
    ⟨{ filename := "../../etc/passwd", file_size := 10 }, by decide, Or.inr (by decide)⟩

/- Image-reference resolution of worker/defense/docker_handler.py. -/

/-- Result of urllib.parse.urlparse restricted to the two components this
call site reads: netloc and path. -/
structure UrlParts where
  netloc : String
  path : String
deriving Repr, DecidableEq

/-- urlparse for the absolute URLs the resolver can receive: netloc is the
text between the scheme separator and the next slash, path the remainder
(query and fragment splitting is not modelled; the resolver reads neither). -/
def urlparse (url : String) : UrlParts :=
  match strSplitOn url "://" with
  | [] => { netloc := "", path := url }
  | [_] => { netloc := "", path := url }
  | _scheme :: r1 :: rs =>
    let after := String.intercalate "://" (r1 :: rs)
    match strSplitOn after "/" with
    | [] => { netloc := after, path := "" }
    | h :: t =>
      { netloc := h,
        path := if t.isEmpty then "" else "/" ++ String.intercalate "/" t }

/-- Python str.strip of slashes: drop leading and trailing slash characters. -/
def stripSlashes (s : String) : String :=
  String.mk (((s.toList.dropWhile (fun c => c = '/')).reverse.dropWhile
    (fun c => c = '/')).reverse)

/-- The regex anchored r slash capture of two nonempty slash-free segments
(docker_handler.py line 37), applied to the stripped path. -/
def matchUserRepo (path : String) : Option String :=
  match strSplitOn path "/" with
  | "r" :: a :: b :: _ => if a ≠ "" ∧ b ≠ "" then some (a ++ "/" ++ b) else none
  | _ => none

/-- The regex anchored underscore slash capture of one nonempty slash-free
segment (docker_handler.py line 42). -/
def matchOfficial (path : String) : Option String :=
  match strSplitOn path "/" with
  | "_" :: a :: _ => if a ≠ "" then some a else none
  | _ => none

/-- docker_handler.resolve_image_name (lines 13 - 47): references not
starting with http are returned as they are; hub.docker.com URLs resolve via
the two regexes; anything else falls back to the stripped path. -/
def resolve_image_name (image_reference : String) : String :=
  if ¬ strStartsWith image_reference "http" then image_reference
  else
    let parsed := urlparse image_reference
    let path := stripSlashes parsed.path
    if parsed.netloc = "hub.docker.com" then
      match matchUserRepo path with
      | some name => name
      | none =>
        match matchOfficial path with
        | some name => name
        | none => path
    else path

/-- C10: every image reference that does not start with http passes through
resolve_image_name unchanged. -/
theorem C10_passthrough (r : String) (h : strStartsWith r "http" = false) :
    resolve_image_name r = r := by
  simp [resolve_image_name, h]

/-- C10 witness: the plain image name nginx colon latest does not start with
http and is returned unchanged. -/
theorem C10_witness :
    strStartsWith "nginx:latest" "http" = false
      ∧ resolve_image_name "nginx:latest" = "nginx:latest" :=
  ⟨by decide, C10_passthrough "nginx:latest" (by decide)⟩

/- Worker registry of worker/redis_client.py, and the system state shared by
the dispatcher and the executors. -/

/-- One registered worker: the metadata hash of redis_client.register plus
the worker's internal attack queue (its Redis list).  Heartbeat and
started_at timestamps are omitted; queue_state is the OPEN or CLOSED
string. -/
structure WorkerRec where
  worker_id : String
  defense_submission_id : String
  job_id : String
  queue_state : String
  queue : List String
deriving Repr, DecidableEq

/-- redis_client.register (lines 33 - 53): write the metadata hash with
queue_state OPEN and add to the active set; an existing queue list for the
same worker id is untouched. -/
def registryRegister (ws : List WorkerRec) (wid did jid : String) : List WorkerRec :=
  let oldQueue := match ws.find? (fun w => w.worker_id == wid) with
    | some w => w.queue
    | none => []
  ws.filter (fun w => w.worker_id != wid)
    ++ [{ worker_id := wid, defense_submission_id := did, job_id := jid,
          queue_state := "OPEN", queue := oldQueue }]

/-- redis_client.add_attack_to_queue (lines 55 - 65): rpush onto the
worker's internal queue. -/
def add_attack_to_queue (ws : List WorkerRec) (wid aid : String) : List WorkerRec :=
  ws.map fun w =>
    if w.worker_id == wid then { w with queue := w.queue ++ [aid] } else w

/-- redis_client.unregister (lines 111 - 127): delete metadata and queue and
leave the active set. -/
def registryUnregister (ws : List WorkerRec) (wid : String) : List WorkerRec :=
  ws.filter (fun w => w.worker_id != wid)

/-- redis_client.get_open_workers_for_defense (lines 129 - 151).  A Redis
set iterates in unspecified order; the embedding fixes registration order. -/
def get_open_workers_for_defense (ws : List WorkerRec) (did : String) : List String :=
  (ws.filter fun w =>
      w.defense_submission_id == did && w.queue_state == "OPEN").map (·.worker_id)

/-- redis_client.mark_evaluation_queued with its declared three arguments
(lines 153 - 174): set-if-absent on the pair key with the job id as value
(the 24 hour TTL is not modelled; no claim observes expiry). -/
def mark_evaluation_queued (claims : List (String × String × String))
    (did aid jid : String) : List (String × String × String) × Bool :=
  if claims.any (fun c => c.1 == did && c.2.1 == aid) then (claims, false)
  else (claims ++ [(did, aid, jid)], true)

/-- Thread-local state of one defense executor: the run_defense_job locals.
phase 0 is before the job started, 1 after register, 2 inside the evaluation
loop, 3 after teardown; runCache is the in-worker mapping of attack ids that
already have an evaluation run (evaluate.py keeps it as the evaluation_runs
dict). -/
structure ThreadState where
  worker_id : String
  job_id : String
  defense_id : String
  phase : Nat
  runCache : List String
deriving Repr, DecidableEq

/-- The shared state: the three relational tables the worker touches, the
registry (workers and claim keys), the executor threads, and the id
counter standing in for uuid generation. -/
structure SysState where
  submissions : List Submission
  runs : List EvalRun
  jobs : List Job
  workers : List WorkerRec
  claims : List (String × String × String)
  threads : List ThreadState
  nextId : Nat
deriving Repr, DecidableEq

/- Attack dispatcher: run_attack_job of worker/tasks.py. -/

/-- The call at tasks.py line 381 passes two arguments to
mark_evaluation_queued while worker/redis_client.py line 153 declares three
(defense_id, attack_id, job_id); CPython raises TypeError before the method
body runs, so the registry is never consulted.  The embedding surfaces the
call as that exception. -/
def mark_evaluation_queued_two_arg_call : Except String Bool :=
  Except.error
    "TypeError: mark_evaluation_queued() missing 1 required positional argument: job_id"

/-- The call at tasks.py line 392 names add_attack_to_worker, a method of the
API-side registry (api/core/redis_client.py line 53) that does not exist on
the worker-side WorkerRegistry the task constructed; CPython raises
AttributeError.  The call is dead code behind the TypeError above. -/
def add_attack_to_worker_call : Except String Unit :=
  Except.error "AttributeError: WorkerRegistry object has no attribute add_attack_to_worker"

/-- Body of the per-defense dispatch loop of run_attack_job (tasks.py lines
373 - 414): skip pairs with a queued or running run, claim via the registry
(the faulty two-argument call), then push to the first open worker or insert
and enqueue a fresh defense job.  Returns the state together with the first
uncaught exception, if any. -/
def dispatch_one (st : SysState) (attack_id defense_id : String) :
    SysState × Option String :=
  if is_evaluation_in_progress st.runs defense_id attack_id then (st, none)
  else
    match mark_evaluation_queued_two_arg_call with
    | Except.error e => (st, some e)
    | Except.ok claimed =>
      if !claimed then (st, none)
      else
        match get_open_workers_for_defense st.workers defense_id with
        | wid :: _ =>
          match add_attack_to_worker_call with
          | Except.error e => (st, some e)
          | Except.ok _ =>
            ({ st with workers := add_attack_to_queue st.workers wid attack_id }, none)
        | [] =>
          let jid := "job-" ++ toString st.nextId
          let newJob : Job :=
            { id := jid, job_type := "defense", status := "queued",
              payload := some [("defense_submission_id", defense_id)],
              error_details := none }
          ({ st with nextId := st.nextId + 1, jobs := st.jobs ++ [newJob] }, none)

/-- The dispatch loop over the validated defenses, stopping at the first
uncaught exception with the state reached so far (Python mutations before an
exception persist). -/
def dispatchLoop (attack_id : String) : SysState → List String → SysState × Option String
  | st, [] => (st, none)
  | st, d :: ds =>
    match dispatch_one st attack_id d with
    | (st1, none) => dispatchLoop attack_id st1 ds
    | (st1, some e) => (st1, some e)

/-- Dispatch over the validated defenses and the epilogue of run_attack_job:
the except clause records the first exception on the job row as failed,
otherwise the job ends done. -/
def run_attack_job_post (st2 : SysState) (job_id attack_id : String) : SysState :=
  match dispatchLoop attack_id st2 (get_all_validated_defenses st2.submissions) with
  | (st3, none) => { st3 with jobs := set_job_status st3.jobs job_id "done" none }
  | (st3, some e) => { st3 with jobs := set_job_status st3.jobs job_id "failed" (some e) }

/-- tasks.run_attack_job (lines 328 - 425): transition the job to running,
mark the attack validated, then dispatch to every validated defense. -/
def run_attack_job (st : SysState) (job_id attack_id : String) : SysState :=
  let st1 := { st with jobs := set_job_status st.jobs job_id "running" none }
  let st2 := { st1 with submissions := mark_attack_validated st1.submissions attack_id }
  run_attack_job_post st2 job_id attack_id

/- Concrete scenario for the dispatcher: one validated defense with one open
worker, one attack whose pair is unclaimed. -/

def defReadyRow : Submission :=
  { id := "d1", submission_type := "defense", status := "ready",
    is_functional := some true, functional_error := none, deleted := false }

def atkSubmittedRow : Submission :=
  { id := "a1", submission_type := "attack", status := "submitted",
    is_functional := none, functional_error := none, deleted := false }

def openWorkerRow : WorkerRec :=
  { worker_id := "w1", defense_submission_id := "d1", job_id := "jd1",
    queue_state := "OPEN", queue := [] }

def attackJobRow : Job :=
  { id := "ja1", job_type := "attack", status := "queued",
    payload := some [("attack_submission_id", "a1")], error_details := none }

def stDispatch : SysState :=
  { submissions := [defReadyRow, atkSubmittedRow], runs := [],
    jobs := [attackJobRow], workers := [openWorkerRow], claims := [],
    threads := [], nextId := 0 }

/-- C4: on a validated defense with an unclaimed pair and an open worker, the
dispatcher crashes on the two-argument mark_evaluation_queued call: the
attack job ends failed with the TypeError recorded, nothing is pushed to the
worker's queue and no new defense job is created, against the claim that the
attack id is pushed to the first returned worker. -/
theorem C4_dispatch_crashes :
    get_all_validated_defenses (mark_attack_validated stDispatch.submissions "a1") = ["d1"]
      ∧ is_evaluation_in_progress stDispatch.runs "d1" "a1" = false
      ∧ get_open_workers_for_defense stDispatch.workers "d1" = ["w1"]
      ∧ (run_attack_job stDispatch "ja1" "a1").jobs.map (fun j => (j.id, j.status))
          = [("ja1", "failed")]
      ∧ (run_attack_job stDispatch "ja1" "a1").workers = [openWorkerRow]
      ∧ (run_attack_job stDispatch "ja1" "a1").jobs.length = 1 := by
  refine ⟨rfl, rfl, rfl, rfl, rfl, rfl⟩

/- Defense executor: run_defense_job of worker/tasks.py in big-step form. -/

/-- validation.validate_defense (worker/defense/validation.py lines 275 -
288): the function run_defense_job calls at tasks.py line 262 is an
unconditional stub raising NotImplementedError; str of that exception is the
message below.  (Its declared parameters are submission_id and source_type,
yet the call site passes the image name and the container url, the signature
of validate_functional.) -/
def validate_defense : Except String Unit :=
  Except.error "validate_defense pending implementation in Phase 5"

/-- Response of a defense container to the functional probe. -/
structure ProbeResponse where
  status_code : Nat
  content_type : String
  json : Except String (Option Int)
deriving Repr, DecidableEq

/-- Python substring containment (the in operator on str), computed over the
character lists. -/
def strContains (s pat : String) : Bool :=
  s.toList.tails.any (fun t => pat.toList.isPrefixOf t)

/-- validation._validate_post_endpoint response checks (validation.py lines
209 - 238): HTTP 200, a content type containing application/json, and a
result field of 0 or 1.  This is the probe the spec's Phase F describes; the
executor never reaches it because it calls the validate_defense stub
instead of validate_functional. -/
def validate_post_endpoint (resp : ProbeResponse) : Except String Unit :=
  if resp.status_code ≠ 200 then
    Except.error ("Defense validation failed: POST / returned HTTP "
      ++ toString resp.status_code)
  else if !(strContains resp.content_type "application/json") then
    Except.error ("Defense validation failed: Expected application/json response, got "
      ++ resp.content_type)
  else
    match resp.json with
    | Except.error e =>
      Except.error ("Defense validation failed: Failed to parse JSON response: " ++ e)
    | Except.ok (some v) =>
      if v = 0 ∨ v = 1 then Except.ok ()
      else Except.error ("Defense validation failed: Result field must be 0 or 1, got "
        ++ toString v)
    | Except.ok none =>
      Except.error "Defense validation failed: Result field must be 0 or 1, got None"

/-- Environment of one defense job: the outcomes of its interactions with
the outside world.  Modelled from the spec: Phase C (obtain image) is
abstracted as its outcome because tasks.py lines 176 - 189 import
pull_docker_image, build_from_github and build_from_zip, names absent from
the handler modules of the source tree (which define
pull_and_resolve_docker_image, build_from_github_repo and
build_from_zip_archive); container readiness (tasks.py lines 235 - 257) is
the boolean outcome of the readiness poll. -/
structure DefenseJobEnv where
  image_result : Except String String
  container_ready : Bool
deriving Repr, DecidableEq

/-- Modelled from the spec: evaluate_defense_with_redis is declared in
worker/defense/__init__.py line 12 and called at tasks.py line 270, but its
definition is absent from the source tree (only its tests exist).  Following
the evaluation loop of spec section 4.4.2 and the in-worker run cache kept
by run_evaluation (evaluate.py lines 57 and 82 - 87), the loop pops attack
ids from the worker's internal queue and creates the EvaluationRun row with
status running for every pair not in the cache, via ensure_evaluation_run;
no run status is ever updated afterwards.  Big-step form draining one
queue. -/
def drainQueue (def_id : String) : List String → List String → List EvalRun → Nat →
    List EvalRun × Nat
  | [], _cache, runs, nid => (runs, nid)
  | a :: rest, cache, runs, nid =>
    if a ∈ cache then drainQueue def_id rest cache runs nid
    else
      let e := ensure_evaluation_run runs nid def_id a
      drainQueue def_id rest (cache ++ [a]) e.1 e.2.2

/-- Evaluation phase plus the success epilogue of run_defense_job: drain the
internal queue creating runs, set the job done, then the finally block
(unregister; container and network teardown have no state in the model). -/
def evalPhaseAndFinish (st : SysState) (job_id defense_id worker_id : String) : SysState :=
  let q := match st.workers.find? (fun w => w.worker_id == worker_id) with
    | some w => w.queue
    | none => []
  let d := drainQueue defense_id q [] st.runs st.nextId
  let ws1 := st.workers.map (fun w =>
    if w.worker_id == worker_id then { w with queue := [] } else w)
  let st1 := { st with runs := d.1, nextId := d.2, workers := ws1 }
  let st2 := { st1 with jobs := set_job_status st1.jobs job_id "done" none }
  { st2 with workers := registryUnregister st2.workers worker_id }

/-- Failure epilogue of run_defense_job: the except clause sets the job
failed with the message, then the finally block unregisters the worker. -/
def failAndCleanup (st : SysState) (job_id worker_id msg : String) : SysState :=
  let st1 := { st with jobs := set_job_status st.jobs job_id "failed" (some msg) }
  { st1 with workers := registryUnregister st1.workers worker_id }

/-- tasks.run_defense_job (lines 114 - 325) in big-step form: transition the
job to running, register the worker, backfill the internal queue from
get_unevaluated_attacks, read the needs-validation flag, obtain the image
and wait for readiness (environment outcomes), run the validate_defense stub
when validation is needed (marking the defense failed and the job failed on
its exception), evaluate, and tear down. -/
def run_defense_job (env : DefenseJobEnv) (st : SysState)
    (job_id defense_id worker_id : String) : SysState :=
  let st1 := { st with jobs := set_job_status st.jobs job_id "running" none }
  let st2 := { st1 with workers := registryRegister st1.workers worker_id defense_id job_id }
  let attacks := get_unevaluated_attacks st2.submissions st2.runs defense_id
  let ws3 := attacks.foldl (fun ws a => add_attack_to_queue ws worker_id a) st2.workers
  let st3 := { st2 with workers := ws3 }
  let needs := check_if_needs_validation st3.submissions defense_id
  match env.image_result with
  | Except.error e => failAndCleanup st3 job_id worker_id e
  | Except.ok _image =>
    if !env.container_ready then
      failAndCleanup st3 job_id worker_id
        "Defense container failed to start within timeout"
    else if needs then
      match validate_defense with
      | Except.error e =>
        let st4 := { st3 with submissions := mark_defense_failed st3.submissions defense_id e }
        failAndCleanup st4 job_id worker_id ("Defense validation failed: " ++ e)
      | Except.ok _ =>
        let st4 := { st3 with submissions := mark_defense_validated st3.submissions defense_id }
        evalPhaseAndFinish st4 job_id defense_id worker_id
    else evalPhaseAndFinish st3 job_id defense_id worker_id

/- Concrete scenario for C3: a defense with is_functional unknown whose
container would answer the probe correctly, a clean environment. -/

def defUnknownRow : Submission :=
  { id := "d1", submission_type := "defense", status := "submitted",
    is_functional := none, functional_error := none, deleted := false }

def defenseJobRow : Job :=
  { id := "jd1", job_type := "defense", status := "queued",
    payload := some [("defense_submission_id", "d1")], error_details := none }

def stValidation : SysState :=
  { submissions := [defUnknownRow], runs := [], jobs := [defenseJobRow],
    workers := [], claims := [], threads := [], nextId := 0 }

def envOk : DefenseJobEnv :=
  { image_result := Except.ok "user/clf:v1", container_ready := true }

/-- The probe answer of a conforming defense: HTTP 200, json content type,
result 1. -/
def conformingProbe : ProbeResponse :=
  { status_code := 200, content_type := "application/json",
    json := Except.ok (some 1) }

/-- C3: a defense with is_functional unknown whose container would pass the
functional probe (validate_post_endpoint accepts its answer) is nevertheless
marked is_functional false with status failed and the NotImplementedError
text of the validate_defense stub as functional_error, and the defense job
ends failed, against the claim of is_functional true, status ready and job
done. -/
theorem C3_validation_stub_fails_job :
    validate_post_endpoint conformingProbe = Except.ok ()
      ∧ check_if_needs_validation stValidation.submissions "d1" = true
      ∧ (run_defense_job envOk stValidation "jd1" "d1" "w1").submissions.map
          (fun s => (s.id, s.is_functional, s.status, s.functional_error))
          = [("d1", some false, "failed",
              some "validate_defense pending implementation in Phase 5")]
      ∧ (run_defense_job envOk stValidation "jd1" "d1" "w1").jobs.map
          (fun j => (j.id, j.status))
          = [("jd1", "failed")]
      ∧ (run_defense_job envOk stValidation "jd1" "d1" "w1").workers = [] := by
  refine ⟨rfl, rfl, rfl, rfl, rfl⟩

/- Interleaving semantics for the concurrency claims: each action is one
atomic phase of one defense executor thread (the phases of run_defense_job,
with the evaluation loop modelled from the spec as in drainQueue), or one
whole attack job.  Threads stand for defense jobs whose defense is already
validated and whose image and readiness phases succeed, the case the
concurrency claims quantify over. -/

/-- Replace thread i. -/
def setThread (st : SysState) (i : Nat) (t : ThreadState) : SysState :=
  { st with threads := st.threads.set i t }

/-- Phase A of run_defense_job (tasks.py lines 150 - 154): job to running,
register the worker. -/
def stepStart (st : SysState) (i : Nat) : SysState :=
  match st.threads.get? i with
  | none => st
  | some t =>
    if t.phase == 0 then
      let st1 := { st with jobs := set_job_status st.jobs t.job_id "running" none }
      let ws := registryRegister st1.workers t.worker_id t.defense_id t.job_id
      setThread { st1 with workers := ws } i { t with phase := 1 }
    else st

/-- Phase B of run_defense_job (tasks.py lines 156 - 164): snapshot the
unevaluated attacks and push them onto the worker's internal queue.  No
registry claim is taken on this path. -/
def stepBackfill (st : SysState) (i : Nat) : SysState :=
  match st.threads.get? i with
  | none => st
  | some t =>
    if t.phase == 1 then
      let attacks := get_unevaluated_attacks st.submissions st.runs t.defense_id
      let ws := attacks.foldl (fun ws a => add_attack_to_queue ws t.worker_id a) st.workers
      setThread { st with workers := ws } i { t with phase := 2 }
    else st

/-- One iteration of the evaluation loop (modelled from the spec, section
4.4.2, as in drainQueue): pop the head of the internal queue and create the
running EvaluationRun row for a pair not in the in-worker cache. -/
def stepProcOne (st : SysState) (i : Nat) : SysState :=
  match st.threads.get? i with
  | none => st
  | some t =>
    if t.phase == 2 then
      match st.workers.find? (fun w => w.worker_id == t.worker_id) with
      | none => st
      | some w =>
        match w.queue with
        | [] => st
        | a :: rest =>
          let ws := st.workers.map (fun w2 =>
            if w2.worker_id == t.worker_id then { w2 with queue := rest } else w2)
          let st1 := { st with workers := ws }
          if a ∈ t.runCache then st1
          else
            let e := ensure_evaluation_run st1.runs st1.nextId t.defense_id a
            setThread { st1 with runs := e.1, nextId := e.2.2 } i
              { t with runCache := t.runCache ++ [a] }
    else st

/-- Idle exit of the loop (permitted by the spec) followed by the epilogue
of run_defense_job: job done, worker unregistered. -/
def stepFinish (st : SysState) (i : Nat) : SysState :=
  match st.threads.get? i with
  | none => st
  | some t =>
    if t.phase == 2 then
      match st.workers.find? (fun w => w.worker_id == t.worker_id) with
      | none => st
      | some w =>
        if w.queue.isEmpty then
          let st1 := { st with jobs := set_job_status st.jobs t.job_id "done" none }
          let ws := registryUnregister st1.workers t.worker_id
          setThread { st1 with workers := ws } i { t with phase := 3 }
        else st
    else st

/-- One scheduling action. -/
inductive Act where
  | start (tid : Nat)
  | backfill (tid : Nat)
  | procOne (tid : Nat)
  | finish (tid : Nat)
  | attackJob (job_id attack_id : String)
deriving Repr, DecidableEq

/-- One step of the interleaving semantics. -/
def step (st : SysState) : Act → SysState
  | Act.start i => stepStart st i
  | Act.backfill i => stepBackfill st i
  | Act.procOne i => stepProcOne st i
  | Act.finish i => stepFinish st i
  | Act.attackJob j a => run_attack_job st j a

/-- Execution of a schedule. -/
def exec (st : SysState) : List Act → SysState
  | [] => st
  | a :: tr => exec (step st a) tr

/-- Evaluation runs for the pair that are in a non-terminal state. -/
def nonTerminalRunsFor (st : SysState) (d a : String) : Nat :=
  (st.runs.filter (fun r =>
      r.defense_submission_id == d && r.attack_submission_id == a
        && r.status != "done" && r.status != "failed")).length

/- Concrete two-worker scenario: one validated defense d1, one ready attack
a1, two defense jobs for d1 interleaved. -/

def threadW1 : ThreadState :=
  { worker_id := "w1", job_id := "jd1", defense_id := "d1", phase := 0, runCache := [] }

def threadW2 : ThreadState :=
  { worker_id := "w2", job_id := "jd2", defense_id := "d1", phase := 0, runCache := [] }

def defenseJob2Row : Job :=
  { id := "jd2", job_type := "defense", status := "queued",
    payload := some [("defense_submission_id", "d1")], error_details := none }

def stTwoWorkers : SysState :=
  { submissions := [defReadyRow, subAttackReady], runs := [],
    jobs := [defenseJobRow, defenseJob2Row], workers := [], claims := [],
    threads := [threadW1, threadW2], nextId := 0 }

def traceTwoWorkers : List Act :=
  [Act.start 0, Act.backfill 0, Act.start 1, Act.backfill 1,
   Act.procOne 0, Act.procOne 1]

/-- C1 counterexample: with two concurrent defense jobs for the validated
defense d1 and the validated attack a1, both backfills snapshot a1 before
either run exists, and both loop iterations create a running run for the
pair: two non-terminal EvaluationRuns for one validated pair, while the
claim set of the registry stays empty, so neither creating actor ever won
(or took) the atomic claim. -/
theorem C1_counterexample :
    nonTerminalRunsFor (exec stTwoWorkers traceTwoWorkers) "d1" "a1" = 2
      ∧ (exec stTwoWorkers traceTwoWorkers).claims = []
      ∧ (exec stTwoWorkers traceTwoWorkers).runs.map (fun r =>
          (r.defense_submission_id, r.attack_submission_id, r.status))
          = [("d1", "a1", "running"), ("d1", "a1", "running")]
      ∧ defReadyRow.is_functional = some true ∧ defReadyRow.status = "ready"
      ∧ subAttackReady.status = "ready" := by
  refine ⟨rfl, rfl, rfl, rfl, rfl, rfl⟩

/- Frame lemmas: the dispatcher crashes before any mutation inside the loop,
so run_attack_job leaves runs and threads unchanged. -/

theorem dispatch_one_fst (st : SysState) (a d : String) :
    (dispatch_one st a d).1 = st := by
  unfold dispatch_one
  split <;> rfl

theorem dispatchLoop_fst (a : String) (ds : List String) :
    ∀ st : SysState, (dispatchLoop a st ds).1 = st := by
  induction ds with
  | nil => intro st; rfl
  | cons d ds ih =>
    intro st
    have hfst := dispatch_one_fst st a d
    rcases hd : dispatch_one st a d with ⟨st1, e⟩
    rw [hd] at hfst
    cases e with
    | none =>
      have hg : (dispatchLoop a st (d :: ds)).1 = (dispatchLoop a st1 ds).1 := by
        simp [dispatchLoop, hd]
      rw [hg, ih st1]
      exact hfst
    | some msg =>
      have hg : (dispatchLoop a st (d :: ds)).1 = st1 := by
        simp [dispatchLoop, hd]
      rw [hg]
      exact hfst

theorem run_attack_job_post_frame (st2 : SysState) (j a : String) :
    (run_attack_job_post st2 j a).runs = st2.runs
      ∧ (run_attack_job_post st2 j a).threads = st2.threads := by
  unfold run_attack_job_post
  have hfst := dispatchLoop_fst a (get_all_validated_defenses st2.submissions) st2
  rcases hl : dispatchLoop a st2 (get_all_validated_defenses st2.submissions) with ⟨st3, e⟩
  rw [hl] at hfst
  subst hfst
  cases e with
  | none => simp [hl]
  | some msg => simp [hl]

theorem run_attack_job_frame (st : SysState) (j a : String) :
    (run_attack_job st j a).runs = st.runs
      ∧ (run_attack_job st j a).threads = st.threads := by
  unfold run_attack_job
  exact ⟨(run_attack_job_post_frame _ j a).1, (run_attack_job_post_frame _ j a).2⟩

/- Run-status invariant: every run row any action creates has status
running, and no action ever updates the status of an existing run row. -/

/-- The row ensure_evaluation_run inserts for counter value n and pair
(d, a). -/
def freshRunRow (n : Nat) (d a : String) : EvalRun :=
  { id := "run-" ++ toString n, defense_submission_id := d,
    attack_submission_id := a, status := "running" }

theorem stepStart_runs (st : SysState) (i : Nat) : (stepStart st i).runs = st.runs := by
  unfold stepStart
  rcases h : st.threads.get? i with _ | t
  · rfl
  · by_cases hp : (t.phase == 0) = true <;> simp [hp, setThread]

theorem stepBackfill_runs (st : SysState) (i : Nat) :
    (stepBackfill st i).runs = st.runs := by
  unfold stepBackfill
  rcases h : st.threads.get? i with _ | t
  · rfl
  · by_cases hp : (t.phase == 1) = true <;> simp [hp, setThread]

theorem stepFinish_runs (st : SysState) (i : Nat) : (stepFinish st i).runs = st.runs := by
  unfold stepFinish
  rcases h : st.threads.get? i with _ | t
  · rfl
  · by_cases hp : (t.phase == 2) = true
    · rcases hw : st.workers.find? (fun w => w.worker_id == t.worker_id) with _ | w
      · simp [hp, hw]
      · by_cases hq : w.queue.isEmpty = true <;> simp [hp, hw, hq, setThread]
    · simp [hp]

theorem stepProcOne_runs (st : SysState) (i : Nat) :
    (stepProcOne st i).runs = st.runs
      ∨ ∃ t a, st.threads.get? i = some t
          ∧ (stepProcOne st i).runs
            = st.runs ++ [freshRunRow st.nextId t.defense_id a] := by
  unfold stepProcOne
  rcases h : st.threads.get? i with _ | t
  · exact Or.inl rfl
  · by_cases hp : (t.phase == 2) = true
    · rcases hw : st.workers.find? (fun w => w.worker_id == t.worker_id) with _ | w
      · simp [hp, hw]
      · rcases hq : w.queue with _ | ⟨a, rest⟩
        · simp [hp, hw, hq]
        · by_cases hc : a ∈ t.runCache
          · simp [hp, hw, hq, hc]
          · refine Or.inr ⟨t, a, rfl, ?_⟩
            simp [hp, hw, hq, hc, setThread, ensure_evaluation_run, freshRunRow]
    · simp [hp]

theorem step_runs_mem (st : SysState) (act : Act) :
    ∀ r ∈ (step st act).runs, r ∈ st.runs ∨ r.status = "running" := by
  intro r hr
  cases act with
  | start i => rw [step, stepStart_runs] at hr; exact Or.inl hr
  | backfill i => rw [step, stepBackfill_runs] at hr; exact Or.inl hr
  | finish i => rw [step, stepFinish_runs] at hr; exact Or.inl hr
  | attackJob j a =>
    rw [step, (run_attack_job_frame st j a).1] at hr
    exact Or.inl hr
  | procOne i =>
    rw [step] at hr
    rcases stepProcOne_runs st i with h | ⟨t, a, -, h⟩
    · rw [h] at hr; exact Or.inl hr
    · rw [h] at hr
      rcases List.mem_append.mp hr with h1 | h1
      · exact Or.inl h1
      · right
        have hr1 : r = freshRunRow st.nextId t.defense_id a := by simpa using h1
        rw [hr1]
        rfl

theorem exec_runs_running (st : SysState)
    (h : ∀ r ∈ st.runs, r.status = "running") (tr : List Act) :
    ∀ r ∈ (exec st tr).runs, r.status = "running" := by
  induction tr generalizing st with
  | nil => exact h
  | cons a tr ih =>
    intro r hr
    refine ih (step st a) ?_ r hr
    intro r2 hr2
    rcases step_runs_mem st a r2 hr2 with h2 | h2
    · exact h r2 h2
    · exact h2

/-- Formalization of claim C2 at an initial state, in its weakest (angelic)
reading: some schedule produces an EvaluationRun for the pair that reaches a
terminal state.  Refuting this refutes every stronger reading of
eventually. -/
def producesTerminalRun (st0 : SysState) (d a : String) : Prop :=
  ∃ tr : List Act, ∃ r ∈ (exec st0 tr).runs,
    r.defense_submission_id = d ∧ r.attack_submission_id = a
      ∧ (r.status = "done" ∨ r.status = "failed")

/-- C2 counterexample: from the state holding the validated, not
soft-deleted pair (d1, a1), no schedule whatever produces an EvaluationRun
for the pair reaching a terminal state: every run row is created with status
running and no code path ever updates it. -/
theorem C2_counterexample : ¬ producesTerminalRun stTwoWorkers "d1" "a1" := by
  rintro ⟨tr, r, hr, -, -, hterm⟩
  have hrun : r.status = "running" := by
    refine exec_runs_running stTwoWorkers ?_ tr r hr
    intro r2 hr2
    simp [stTwoWorkers] at hr2
  rcases hterm with h | h <;> rw [hrun] at h <;> exact absurd h (by decide)

/-- C2 (amended): the system can create an EvaluationRun for the validated
pair (a concrete schedule reaches one with status running), but every run in
every reachable state stays in the non-terminal status running: no run ever
reaches a terminal state, under any schedule. -/
theorem C2_amended_runs_never_terminal :
    (∃ r ∈ (exec stTwoWorkers [Act.start 0, Act.backfill 0, Act.procOne 0]).runs,
        r.defense_submission_id = "d1" ∧ r.attack_submission_id = "a1"
          ∧ r.status = "running")
      ∧ ∀ tr : List Act, ∀ r ∈ (exec stTwoWorkers tr).runs, r.status = "running" := by
  constructor
  · exact ⟨freshRunRow 0 "d1" "a1", by decide, rfl, rfl, rfl⟩
  · intro tr r hr
    refine exec_runs_running stTwoWorkers ?_ tr r hr
    intro r2 hr2
    simp [stTwoWorkers] at hr2

/-- C2 amended witness at a concrete schedule and run row: the run the
three-action schedule creates is in status running. -/
theorem C2_amended_witness :
    (freshRunRow 0 "d1" "a1").status = "running" :=
  C2_amended_runs_never_terminal.2 [Act.start 0, Act.backfill 0, Act.procOne 0]
    (freshRunRow 0 "d1" "a1") (by decide)

/- Single-worker invariant: with one executor thread and no concurrent
worker for the same defense, at most one run per pair ever exists; the
guard is the in-worker cache, not the registry claim. -/

/-- Evaluation runs for the pair, in any state. -/
def pairRunsL (runs : List EvalRun) (d a : String) : Nat :=
  (runs.filter (fun r =>
      r.defense_submission_id == d && r.attack_submission_id == a)).length

theorem pairRunsL_append_single (runs : List EvalRun) (r : EvalRun) (d a : String) :
    pairRunsL (runs ++ [r]) d a
      = pairRunsL runs d a
        + (if r.defense_submission_id = d ∧ r.attack_submission_id = a then 1 else 0) := by
  by_cases hd : r.defense_submission_id = d
  · by_cases ha : r.attack_submission_id = a
    · simp [pairRunsL, List.filter_append, hd, ha]
    · simp [pairRunsL, List.filter_append, hd, ha]
  · simp [pairRunsL, List.filter_append, hd]

theorem length_filter_implies {α : Type} (l : List α) (p q : α → Bool)
    (h : ∀ x, p x = true → q x = true) :
    (l.filter p).length ≤ (l.filter q).length := by
  induction l with
  | nil => simp
  | cons x xs ih =>
    by_cases hx : p x = true
    · rw [List.filter_cons_of_pos hx, List.filter_cons_of_pos (h x hx)]
      simpa using ih
    · rw [List.filter_cons_of_neg (by simpa using hx)]
      by_cases hq : q x = true
      · rw [List.filter_cons_of_pos hq]
        exact Nat.le_succ_of_le ih
      · rw [List.filter_cons_of_neg (by simpa using hq)]
        exact ih

theorem nonTerminal_le_pairRuns (st : SysState) (d a : String) :
    nonTerminalRunsFor st d a ≤ pairRunsL st.runs d a := by
  refine length_filter_implies st.runs _ _ ?_
  intro r h
  simp only [Bool.and_eq_true] at h ⊢
  exact h.1.1

/-- Shape of one start step: either a no-op on runs and threads, or thread i
moves to phase 1 with runs untouched. -/
theorem stepStart_spec (st : SysState) (i : Nat) :
    ((stepStart st i).runs = st.runs ∧ (stepStart st i).threads = st.threads)
      ∨ ∃ t, st.threads.get? i = some t
          ∧ (stepStart st i).runs = st.runs
          ∧ (stepStart st i).threads = st.threads.set i { t with phase := 1 } := by
  unfold stepStart
  rcases hg : st.threads.get? i with _ | t
  · exact Or.inl ⟨rfl, rfl⟩
  · by_cases hp : (t.phase == 0) = true
    · exact Or.inr ⟨t, rfl, by simp [hp, setThread], by simp [hp, setThread]⟩
    · simp [hp]

/-- Shape of one backfill step on runs and threads. -/
theorem stepBackfill_spec (st : SysState) (i : Nat) :
    ((stepBackfill st i).runs = st.runs ∧ (stepBackfill st i).threads = st.threads)
      ∨ ∃ t, st.threads.get? i = some t
          ∧ (stepBackfill st i).runs = st.runs
          ∧ (stepBackfill st i).threads = st.threads.set i { t with phase := 2 } := by
  unfold stepBackfill
  rcases hg : st.threads.get? i with _ | t
  · exact Or.inl ⟨rfl, rfl⟩
  · by_cases hp : (t.phase == 1) = true
    · exact Or.inr ⟨t, rfl, by simp [hp, setThread], by simp [hp, setThread]⟩
    · simp [hp]

/-- Shape of one finish step on runs and threads. -/
theorem stepFinish_spec (st : SysState) (i : Nat) :
    ((stepFinish st i).runs = st.runs ∧ (stepFinish st i).threads = st.threads)
      ∨ ∃ t, st.threads.get? i = some t
          ∧ (stepFinish st i).runs = st.runs
          ∧ (stepFinish st i).threads = st.threads.set i { t with phase := 3 } := by
  unfold stepFinish
  rcases hg : st.threads.get? i with _ | t
  · exact Or.inl ⟨rfl, rfl⟩
  · by_cases hp : (t.phase == 2) = true
    · rcases hw : st.workers.find? (fun w => w.worker_id == t.worker_id) with _ | w
      · simp [hp, hw]
      · by_cases hq : w.queue.isEmpty = true
        · exact Or.inr ⟨t, rfl, by simp [hp, hw, hq, setThread], by simp [hp, hw, hq, setThread]⟩
        · simp [hp, hw, hq]
    · simp [hp]

/-- Shape of one loop iteration on runs and threads: either both untouched,
or an uncached attack a is recorded: a fresh running run for the thread's
defense is appended and a enters the cache. -/
theorem stepProcOne_spec (st : SysState) (i : Nat) :
    ((stepProcOne st i).runs = st.runs ∧ (stepProcOne st i).threads = st.threads)
      ∨ ∃ t a, st.threads.get? i = some t ∧ a ∉ t.runCache
          ∧ (stepProcOne st i).runs = st.runs ++ [freshRunRow st.nextId t.defense_id a]
          ∧ (stepProcOne st i).threads
            = st.threads.set i { t with runCache := t.runCache ++ [a] } := by
  unfold stepProcOne
  rcases hg : st.threads.get? i with _ | t
  · exact Or.inl ⟨rfl, rfl⟩
  · by_cases hp : (t.phase == 2) = true
    · rcases hw : st.workers.find? (fun w => w.worker_id == t.worker_id) with _ | w
      · simp [hp, hw]
      · rcases hq : w.queue with _ | ⟨a, rest⟩
        · simp [hp, hw, hq]
        · by_cases hc : a ∈ t.runCache
          · simp [hp, hw, hq, hc]
          · refine Or.inr ⟨t, a, rfl, hc, ?_, ?_⟩
            · simp [hp, hw, hq, hc, setThread, ensure_evaluation_run, freshRunRow]
            · simp [hp, hw, hq, hc, setThread]
    · simp [hp]

/-- The single-worker invariant: one thread, every run belongs to its
defense and is cached, no pair has two runs. -/
def SingleWorkerInv (st : SysState) : Prop :=
  ∃ t, st.threads = [t]
    ∧ (∀ a, a ∉ t.runCache → pairRunsL st.runs t.defense_id a = 0)
    ∧ (∀ d a, pairRunsL st.runs d a ≤ 1)
    ∧ (∀ r ∈ st.runs, r.defense_submission_id = t.defense_id)

theorem SingleWorkerInv_step (st : SysState) (act : Act)
    (h : SingleWorkerInv st) : SingleWorkerInv (step st act) := by
  obtain ⟨t, hth, hcache, hle, hdef⟩ := h
  have hframe : ∀ st' : SysState, st'.runs = st.runs → st'.threads = st.threads →
      SingleWorkerInv st' := by
    intro st' h1 h2
    exact ⟨t, by rw [h2, hth], by rw [h1]; exact hcache, by rw [h1]; exact hle,
      by rw [h1]; exact hdef⟩
  have hphase : ∀ st' : SysState, ∀ i : Nat, ∀ t0 : ThreadState, ∀ k : Nat,
      st.threads.get? i = some t0 → st'.runs = st.runs →
      st'.threads = st.threads.set i { t0 with phase := k } →
      SingleWorkerInv st' := by
    intro st' i t0 k hg h1 h2
    rcases i with _ | n
    · have ht0 : t0 = t := by
        rw [hth] at hg
        simpa using hg.symm
      subst ht0
      refine ⟨{ t0 with phase := k }, by rw [h2, hth]; rfl, ?_, ?_, ?_⟩
      · intro b hb
        rw [h1]
        exact hcache b hb
      · intro d b
        rw [h1]
        exact hle d b
      · intro r hr
        rw [h1] at hr
        exact hdef r hr
    · rw [hth] at hg
      simp at hg
  cases act with
  | attackJob j a =>
    obtain ⟨h1, h2⟩ := run_attack_job_frame st j a
    exact hframe _ h1 h2
  | start i =>
    rcases stepStart_spec st i with ⟨h1, h2⟩ | ⟨t0, hg, h1, h2⟩
    · exact hframe _ h1 h2
    · exact hphase _ i t0 1 hg h1 h2
  | backfill i =>
    rcases stepBackfill_spec st i with ⟨h1, h2⟩ | ⟨t0, hg, h1, h2⟩
    · exact hframe _ h1 h2
    · exact hphase _ i t0 2 hg h1 h2
  | finish i =>
    rcases stepFinish_spec st i with ⟨h1, h2⟩ | ⟨t0, hg, h1, h2⟩
    · exact hframe _ h1 h2
    · exact hphase _ i t0 3 hg h1 h2
  | procOne i =>
    rcases stepProcOne_spec st i with ⟨h1, h2⟩ | ⟨t0, a, hg, hnc, h1, h2⟩
    · exact hframe _ h1 h2
    · rcases i with _ | n
      · have ht0 : t0 = t := by
          rw [hth] at hg
          simpa using hg.symm
        subst ht0
        show SingleWorkerInv (stepProcOne st 0)
        refine ⟨{ t0 with runCache := t0.runCache ++ [a] }, by rw [h2, hth]; rfl, ?_, ?_, ?_⟩
        · intro b hb
          have hb1 : b ∉ t0.runCache := fun hx => hb (List.mem_append.mpr (Or.inl hx))
          have hb2 : b ≠ a := by
            intro hx
            exact hb (List.mem_append.mpr (Or.inr (by simp [hx])))
          rw [h1, pairRunsL_append_single, hcache b hb1]
          rw [if_neg]
          rintro ⟨-, hx⟩
          exact hb2 hx.symm
        · intro d b
          rw [h1, pairRunsL_append_single]
          by_cases hcond : (freshRunRow st.nextId t0.defense_id a).defense_submission_id = d
              ∧ (freshRunRow st.nextId t0.defense_id a).attack_submission_id = b
          · rw [if_pos hcond]
            obtain ⟨hc1, hc2⟩ := hcond
            have h0 : pairRunsL st.runs d b = 0 := by
              rw [← hc1, ← hc2]
              exact hcache a hnc
            rw [h0]
          · rw [if_neg hcond]
            simpa using hle d b
        · intro r hr
          rw [h1] at hr
          rcases List.mem_append.mp hr with hx | hx
          · exact hdef r hx
          · have hr1 : r = freshRunRow st.nextId t0.defense_id a := by simpa using hx
            rw [hr1]
            rfl
      · rw [hth] at hg
        simp at hg

theorem SingleWorkerInv_exec (st : SysState) (h : SingleWorkerInv st)
    (tr : List Act) : SingleWorkerInv (exec st tr) := by
  induction tr generalizing st with
  | nil => exact h
  | cons a tr ih => exact ih (step st a) (SingleWorkerInv_step st a h)

/-- C1 (amended): in every execution with a single defense executor thread
(no second worker for any defense) started on an empty run table, every
(defense, attack) pair has at most one EvaluationRun in a non-terminal state
at every instant; the guard is the executor's in-worker cache.  With two
concurrent workers for the same defense the property fails (the
counterexample above), because the backfill and run-creating paths never
take the registry claim. -/
theorem C1_amended_single_worker (st0 : SysState) (t0 : ThreadState)
    (tr : List Act) (h1 : st0.threads = [t0]) (h2 : t0.runCache = [])
    (h3 : st0.runs = []) (d a : String) :
    nonTerminalRunsFor (exec st0 tr) d a ≤ 1 := by
  have hinv : SingleWorkerInv st0 := by
    refine ⟨t0, h1, ?_, ?_, ?_⟩
    · intro b hb
      rw [h3]
      rfl
    · intro d b
      rw [h3]
      exact Nat.zero_le 1
    · intro r hr
      rw [h3] at hr
      simp at hr
  obtain ⟨t, -, -, hle, -⟩ := SingleWorkerInv_exec st0 hinv tr
  exact le_trans (nonTerminal_le_pairRuns _ d a) (hle d a)

/-- The single-worker scenario used to witness the amended C1. -/
def stOneWorker : SysState :=
  { submissions := [defReadyRow, subAttackReady], runs := [],
    jobs := [defenseJobRow], workers := [], claims := [],
    threads := [threadW1], nextId := 0 }

/-- C1 amended witness: the lone worker's execution keeps at most one
non-terminal run for the pair (d1, a1). -/
theorem C1_amended_witness :
    nonTerminalRunsFor
      (exec stOneWorker [Act.start 0, Act.backfill 0, Act.procOne 0]) "d1" "a1" ≤ 1 :=
  C1_amended_single_worker stOneWorker threadW1
    [Act.start 0, Act.backfill 0, Act.procOne 0] rfl rfl rfl "d1" "a1"
